import Mathlib

/-!
Formal model of the financial document analyzer backend
(`backend/tools/financial_tools.py`, `backend/tools/search_tool.py`,
`backend/services/analysis_service.py`, `backend/config/settings.py`,
`backend/models/document.py`).

Python strings are modelled as `List Char` / `String` (one `Char` per code
point).  Python's regex substitutions are modelled by bespoke scanners that
implement the exact leftmost, greedy (backtracking) semantics of each
pattern appearing in the source.  `\s`, `\d` and `str.strip()` are modelled
over their ASCII parts, which is exact for ASCII inputs.  Recursive scanners
take an explicit fuel argument (always instantiated with the input length,
which bounds the number of scan steps, as every step consumes at least one
character) so that all definitions compute by kernel reduction.
-/

namespace Py

/-- ASCII part of Python's `\s` / `str.strip()` whitespace class. -/
def isSpace (c : Char) : Bool :=
  c = ' ' || c = '\t' || c = '\n' || c = '\r' || c = '\x0b' || c = '\x0c'

/-- Python `str.strip()` on the ASCII whitespace class. -/
def strip (l : List Char) : List Char :=
  ((l.dropWhile isSpace).reverse.dropWhile isSpace).reverse

/-- Python `str.strip()` on `String`s. -/
def stripStr (s : String) : String := (strip s.data).asString

/-- Python `str.lower()` restricted to ASCII letters. -/
def lower (s : String) : String := (s.data.map Char.toLower).asString

end Py

namespace FinancialDocumentTool

open Py

/-- `re.sub(r'\r\n?', '\n', ·)`: every `\r\n` pair and every lone `\r`
becomes a single `\n`. -/
def subCrlf : List Char → List Char
  | [] => []
  | '\r' :: '\n' :: rest => '\n' :: subCrlf rest
  | '\r' :: rest => '\n' :: subCrlf rest
  | c :: rest => c :: subCrlf rest

/-- Characters matched by the class `[ \t]`. -/
def isBlank (c : Char) : Bool := c = ' ' || c = '\t'

/-- `re.sub(r'[ \t]+', ' ', ·)`: a maximal run of spaces/tabs becomes one
space.  Fueled scanner; each step consumes at least one character. -/
def subBlanksF : Nat → List Char → List Char
  | 0, l => l
  | _, [] => []
  | fuel + 1, c :: rest =>
    if isBlank c then ' ' :: subBlanksF fuel (rest.dropWhile isBlank)
    else c :: subBlanksF fuel rest

def subBlanks (l : List Char) : List Char := subBlanksF l.length l

/-- Position of the last `\n` in a list (`none` if there is none). -/
def lastNlPos : List Char → Option Nat
  | [] => none
  | c :: rest =>
    match lastNlPos rest with
    | some i => some (i + 1)
    | none => if c = '\n' then some 0 else none

/-- `re.sub(r'\n\s*\n\s*\n', '\n\n', ·)`.  A match starts at a `\n` whose
maximal whitespace run contains at least three `\n`s; by greediness the
match extends exactly to the last `\n` of that run. -/
def subTripleNlF : Nat → List Char → List Char
  | 0, l => l
  | _, [] => []
  | fuel + 1, c :: rest =>
    if c = '\n' then
      let run := List.takeWhile isSpace (c :: rest)
      if 3 ≤ run.count '\n' then
        '\n' :: '\n' :: subTripleNlF fuel (List.drop ((lastNlPos run).getD 0 + 1) (c :: rest))
      else c :: subTripleNlF fuel rest
    else c :: subTripleNlF fuel rest

def subTripleNl (l : List Char) : List Char := subTripleNlF l.length l

/-- `re.sub(r'\n\s*\n', '\n\n', ·)`.  A match starts at a `\n` whose maximal
whitespace run contains at least two `\n`s and extends to the last `\n` of
that run. -/
def subDoubleNlF : Nat → List Char → List Char
  | 0, l => l
  | _, [] => []
  | fuel + 1, c :: rest =>
    if c = '\n' then
      let run := List.takeWhile isSpace (c :: rest)
      if 2 ≤ run.count '\n' then
        '\n' :: '\n' :: subDoubleNlF fuel (List.drop ((lastNlPos run).getD 0 + 1) (c :: rest))
      else c :: subDoubleNlF fuel rest
    else c :: subDoubleNlF fuel rest

def subDoubleNl (l : List Char) : List Char := subDoubleNlF l.length l

/-- `re.sub(r'\$\s+', '$', ·)`: a `$` followed by a nonempty maximal
whitespace run keeps only the `$`. -/
def subDollarF : Nat → List Char → List Char
  | 0, l => l
  | _, [] => []
  | fuel + 1, c :: rest =>
    if c = '$' then
      match rest with
      | [] => [c]
      | c2 :: _ =>
        if isSpace c2 then '$' :: subDollarF fuel (rest.dropWhile isSpace)
        else c :: subDollarF fuel rest
    else c :: subDollarF fuel rest

def subDollar (l : List Char) : List Char := subDollarF l.length l

/-- Attempt to match `\s+,\s*(\d)` (the part of `(\d)\s+,\s*(\d)` after the
first digit).  Returns the captured digit and the remainder after the match;
both whitespace runs are maximal (greedy, and shorter runs cannot be
followed by `,` resp. a digit). -/
def spacedCommaTail (rest : List Char) : Option (Char × List Char) :=
  match rest with
  | [] => none
  | c :: _ =>
    if isSpace c then
      match rest.dropWhile isSpace with
      | ',' :: r2 =>
        match r2.dropWhile isSpace with
        | d :: r3 => if d.isDigit then some (d, r3) else none
        | [] => none
      | _ => none
    else none

/-- `re.sub(r'(\d)\s+,\s*(\d)', r'\1,\2', ·)`.  Note that the match consumes
the second digit, so scanning resumes after it. -/
def subSpacedCommaF : Nat → List Char → List Char
  | 0, l => l
  | _, [] => []
  | fuel + 1, c :: rest =>
    if c.isDigit then
      match spacedCommaTail rest with
      | some (d, r3) => c :: ',' :: d :: subSpacedCommaF fuel r3
      | none => c :: subSpacedCommaF fuel rest
    else c :: subSpacedCommaF fuel rest

def subSpacedComma (l : List Char) : List Char := subSpacedCommaF l.length l

/-- Case-insensitive comparison with an ASCII letter. -/
def chIs (c target : Char) : Bool := c.toLower = target

/-- Attempt to match `Page \d+ of \d+` (with `re.IGNORECASE`) at the head of
the input; on success return the remainder after the match.  Both `\d+` are
maximal (greedy; a shorter digit run is followed by a digit, not the
required literal). -/
def matchPageOf : List Char → Option (List Char)
  | p :: a :: g :: e :: ' ' :: rest =>
    if chIs p 'p' && chIs a 'a' && chIs g 'g' && chIs e 'e' then
      match rest.takeWhile Char.isDigit with
      | [] => none
      | _ :: _ =>
        match rest.dropWhile Char.isDigit with
        | ' ' :: o :: f :: ' ' :: rest2 =>
          if chIs o 'o' && chIs f 'f' then
            match rest2.takeWhile Char.isDigit with
            | [] => none
            | _ :: _ => some (rest2.dropWhile Char.isDigit)
          else none
        | _ => none
    else none
  | _ => none

/-- `re.sub(r'Page \d+ of \d+', '', ·, flags=re.IGNORECASE)`. -/
def subPageOfF : Nat → List Char → List Char
  | 0, l => l
  | _, [] => []
  | fuel + 1, c :: rest =>
    match matchPageOf (c :: rest) with
    | some r => subPageOfF fuel r
    | none => c :: subPageOfF fuel rest

def subPageOf (l : List Char) : List Char := subPageOfF l.length l

/-- Model of `FinancialDocumentTool._clean_financial_text`: the source's
seven `re.sub` steps in order, followed by `str.strip()`; the empty string
is returned unchanged (`if not text: return ""`). -/
def clean_financial_text (s : String) : String :=
  if s = "" then ""
  else
    (Py.strip
      (subDoubleNl
        (subPageOf
          (subSpacedComma
            (subDollar
              (subTripleNl
                (subBlanks
                  (subCrlf s.data)))))))).asString

end FinancialDocumentTool

/-- C1: the spec claims `_clean_financial_text` is idempotent.  It is not:
on `"a Page 1 of 2 b"` one application removes the pagination artifact and
leaves the two surrounding spaces adjacent (`"a  b"`), and a second
application collapses them to one space (`"a b"`). -/
theorem clean_financial_text_not_idempotent :
    FinancialDocumentTool.clean_financial_text "a Page 1 of 2 b" = "a  b" ∧
    FinancialDocumentTool.clean_financial_text
        (FinancialDocumentTool.clean_financial_text "a Page 1 of 2 b") = "a b" ∧
    FinancialDocumentTool.clean_financial_text
        (FinancialDocumentTool.clean_financial_text "a Page 1 of 2 b") ≠
      FinancialDocumentTool.clean_financial_text "a Page 1 of 2 b" := by
  refine ⟨by decide, by decide, by decide⟩

namespace FinancialDocumentTool

/-- Outcome of one PDF extraction strategy on a given file: the strategy
either raises or returns a string.  The three concrete strategies
(`_extract_with_pdfplumber`, `_extract_with_pymupdf`, `_extract_with_pypdf2`)
perform I/O through external PDF libraries, so `_extract_pdf` is modelled
over the list of their outcomes, in the fixed source order. -/
inductive StrategyResult where
  | raises
  | returns (text : String)
deriving DecidableEq

/-- Model of `FinancialDocumentTool._extract_pdf`: try each strategy in
order; a raising strategy is skipped; a returned text is accepted iff
`len(text.strip()) > 50`, in which case the cleaned text is returned;
otherwise (`Except.error ()`, modelling `raise Exception(...)`) all
strategies were exhausted. -/
def extract_pdf : List StrategyResult → Except Unit String
  | [] => .error ()
  | .raises :: rest => extract_pdf rest
  | .returns t :: rest =>
    if 50 < (Py.strip t.data).length then .ok (clean_financial_text t)
    else extract_pdf rest

/-- Modelled from the spec's words, for comparison with `extract_pdf`: the
raw output of the first strategy (in list order) that does not throw and
whose output, after whitespace-stripping, exceeds 50 characters. -/
def firstViableOutput : List StrategyResult → Option String
  | [] => none
  | .raises :: rest => firstViableOutput rest
  | .returns t :: rest =>
    if 50 < (Py.strip t.data).length then some t else firstViableOutput rest

end FinancialDocumentTool

/-- C2: PDF extraction returns the normalized (cleaned) output of the first
strategy whose stripped output exceeds 50 characters; throwing strategies
are skipped non-fatally; if no strategy produces above-threshold output the
extraction fails instead of returning a low-content result. -/
theorem extract_pdf_cascade (rs : List FinancialDocumentTool.StrategyResult) :
    FinancialDocumentTool.extract_pdf rs =
      (match FinancialDocumentTool.firstViableOutput rs with
        | some t => Except.ok (FinancialDocumentTool.clean_financial_text t)
        | none => Except.error ()) ∧
    FinancialDocumentTool.extract_pdf (FinancialDocumentTool.StrategyResult.raises :: rs) =
      FinancialDocumentTool.extract_pdf rs := by
  constructor
  · induction rs with
    | nil => rfl
    | cons r rest ih =>
      cases r with
      | raises => simpa [FinancialDocumentTool.extract_pdf,
          FinancialDocumentTool.firstViableOutput] using ih
      | returns t =>
        by_cases h : 50 < (Py.strip t.data).length
        · simp [FinancialDocumentTool.extract_pdf,
            FinancialDocumentTool.firstViableOutput, h]
        · simpa [FinancialDocumentTool.extract_pdf,
            FinancialDocumentTool.firstViableOutput, h] using ih
  · rfl

namespace FinancialDocumentTool

/-- The facts about the file behind `file_path` that
`FinancialDocumentTool.read_document` consults: `Path(file_path).exists()`,
`path.stat().st_size` and `path.suffix`. -/
structure FileInfo where
  pathExists : Bool
  size : Nat
  suffix : String

/-- The errors `read_document` raises: `FileNotFoundError`, `ValueError`
with a "File too large" message, `ValueError` with an "Unsupported file
type" message; extractor failures propagate unchanged (the `except` clause
logs and re-raises). -/
inductive ReadError where
  | fileNotFound
  | fileTooLarge (size : Nat)
  | unsupportedType (ext : String)
  | extractorFailed
deriving DecidableEq

/-- Model of `FinancialDocumentTool.read_document`: checks existence, then
the size limit (`settings.MAX_FILE_SIZE`, passed in as the policy value
`maxFileSize`), then dispatches on the lower-cased suffix.  The outcomes of
the three format extractors on this file are passed in as parameters. -/
def read_document (f : FileInfo) (maxFileSize : Nat)
    (pdfResult docxResult txtResult : Except ReadError String) :
    Except ReadError String :=
  if !f.pathExists then .error .fileNotFound
  else if maxFileSize < f.size then .error (.fileTooLarge f.size)
  else
    let ext := Py.lower f.suffix
    if ext = ".pdf" then pdfResult
    else if ext = ".docx" then docxResult
    else if ext = ".txt" then txtResult
    else .error (.unsupportedType ext)

end FinancialDocumentTool

/-- C5: `read_document` fails with the unsupported-type error for every file
whose (lower-cased) extension is not pdf/docx/txt (given that the earlier
existence and size checks pass), with the not-found error for every path
that does not exist, and with the size error for every existing file larger
than the configured maximum. -/
theorem read_document_error_contract
    (f : FinancialDocumentTool.FileInfo) (maxFileSize : Nat)
    (pdfResult docxResult txtResult :
      Except FinancialDocumentTool.ReadError String) :
    (f.pathExists = false →
      FinancialDocumentTool.read_document f maxFileSize pdfResult docxResult txtResult =
        Except.error FinancialDocumentTool.ReadError.fileNotFound) ∧
    (f.pathExists = true → maxFileSize < f.size →
      FinancialDocumentTool.read_document f maxFileSize pdfResult docxResult txtResult =
        Except.error (FinancialDocumentTool.ReadError.fileTooLarge f.size)) ∧
    (f.pathExists = true → f.size ≤ maxFileSize →
      Py.lower f.suffix ≠ ".pdf" → Py.lower f.suffix ≠ ".docx" →
      Py.lower f.suffix ≠ ".txt" →
      FinancialDocumentTool.read_document f maxFileSize pdfResult docxResult txtResult =
        Except.error (FinancialDocumentTool.ReadError.unsupportedType (Py.lower f.suffix))) := by
  refine ⟨fun h => ?_, fun h hs => ?_, fun h hs h1 h2 h3 => ?_⟩
  · simp [FinancialDocumentTool.read_document, h]
  · simp [FinancialDocumentTool.read_document, h, hs]
  · simp [FinancialDocumentTool.read_document, h, Nat.not_lt.mpr hs, h1, h2, h3]

/-- Closed instance of `read_document_error_contract`. -/
theorem read_document_error_contract_witness :
    FinancialDocumentTool.read_document ⟨false, 0, ".xls"⟩ 100
        (Except.error FinancialDocumentTool.ReadError.extractorFailed)
        (Except.error FinancialDocumentTool.ReadError.extractorFailed)
        (Except.error FinancialDocumentTool.ReadError.extractorFailed) =
      Except.error FinancialDocumentTool.ReadError.fileNotFound ∧
    FinancialDocumentTool.read_document ⟨true, 101, ".pdf"⟩ 100
        (Except.ok "x") (Except.ok "x") (Except.ok "x") =
      Except.error (FinancialDocumentTool.ReadError.fileTooLarge 101) ∧
    FinancialDocumentTool.read_document ⟨true, 7, ".XLS"⟩ 100
        (Except.ok "x") (Except.ok "x") (Except.ok "x") =
      Except.error (FinancialDocumentTool.ReadError.unsupportedType ".xls") := by
  refine ⟨(read_document_error_contract ⟨false, 0, ".xls"⟩ 100 _ _ _).1 rfl,
    (read_document_error_contract ⟨true, 101, ".pdf"⟩ 100 _ _ _).2.1 rfl (by decide),
    ?_⟩
  have h := (read_document_error_contract ⟨true, 7, ".XLS"⟩ 100
    (Except.ok "x") (Except.ok "x") (Except.ok "x")).2.2
    rfl (by decide) (by decide) (by decide) (by decide)
  simpa [Py.lower] using h

/-- C10: the failure checks of `read_document` are ordered
existence → size → extension: a nonexistent path yields the not-found error
even when the extension is unsupported and the size exceeds the limit, and
an existing oversized file yields the size error even when the extension is
unsupported. -/
theorem read_document_check_order
    (size : Nat) (suffix : String) (maxFileSize : Nat)
    (pdfResult docxResult txtResult :
      Except FinancialDocumentTool.ReadError String)
    (hbad : Py.lower suffix ≠ ".pdf" ∧ Py.lower suffix ≠ ".docx" ∧
      Py.lower suffix ≠ ".txt") :
    FinancialDocumentTool.read_document ⟨false, size, suffix⟩ maxFileSize
        pdfResult docxResult txtResult =
      Except.error FinancialDocumentTool.ReadError.fileNotFound ∧
    (maxFileSize < size →
      FinancialDocumentTool.read_document ⟨true, size, suffix⟩ maxFileSize
          pdfResult docxResult txtResult =
        Except.error (FinancialDocumentTool.ReadError.fileTooLarge size)) := by
  refine ⟨by simp [FinancialDocumentTool.read_document], fun hs => ?_⟩
  simp [FinancialDocumentTool.read_document, hs]

/-- Closed instance of `read_document_check_order`. -/
theorem read_document_check_order_witness :
    FinancialDocumentTool.read_document ⟨false, 500, ".exe"⟩ 100
        (Except.ok "x") (Except.ok "x") (Except.ok "x") =
      Except.error FinancialDocumentTool.ReadError.fileNotFound ∧
    FinancialDocumentTool.read_document ⟨true, 500, ".exe"⟩ 100
        (Except.ok "x") (Except.ok "x") (Except.ok "x") =
      Except.error (FinancialDocumentTool.ReadError.fileTooLarge 500) := by
  have h := read_document_check_order 500 ".exe" 100
    (Except.ok "x") (Except.ok "x") (Except.ok "x")
    ⟨by decide, by decide, by decide⟩
  exact ⟨h.1, h.2 (by decide)⟩

namespace Re

/-- Regular-expression ASTs covering exactly the constructs appearing in the
five metric patterns of `extract_financial_metrics`.  All five are compiled
with `re.IGNORECASE`, so literals match case-insensitively.  Quantifiers in
those patterns apply only to single-character classes and are greedy. -/
inductive RE where
  | lit (cs : List Char)
  | cls (p : Char → Bool)
  | starCls (p : Char → Bool)
  | plusCls (p : Char → Bool)
  | seq (a b : RE)
  | alt (a b : RE)
  | opt (a : RE)
  | grp (i : Nat) (a : RE)

/-- Case-insensitive literal prefix match; returns the remainder. -/
def dropLitCI : List Char → List Char → Option (List Char)
  | [], input => some input
  | _ :: _, [] => none
  | c :: cs, x :: xs => if x.toLower = c.toLower then dropLitCI cs xs else none

/-- Try a continuation on each suffix in order, returning the first
success.  Used for greedy backtracking of class quantifiers. -/
def trySuffixes (k : List Char → Option α) : List (List Char) → Option α
  | [] => none
  | s :: rest => (k s).orElse (fun _ => trySuffixes k rest)

/-- Suffixes of `input` obtained by dropping `n, n-1, …, 0` characters of
its maximal `p`-run: the greedy preference order for `(class)*`. -/
def starSuffixes (p : Char → Bool) (input : List Char) : List (List Char) :=
  ((List.range ((input.takeWhile p).length + 1)).reverse).map (input.drop ·)

/-- Same for `(class)+`: drop counts `n, n-1, …, 1`. -/
def plusSuffixes (p : Char → Bool) (input : List Char) : List (List Char) :=
  (((List.range ((input.takeWhile p).length)).map (· + 1)).reverse).map (input.drop ·)

/-- Backtracking matcher in continuation-passing style, with Python's
leftmost-first semantics: greedy quantifiers try longer consumptions first,
alternation prefers its left branch, `?` prefers presence.  `gs` accumulates
capture-group contents. -/
def mtch (re : RE) (input : List Char) (gs : List (Nat × List Char))
    (k : List Char → List (Nat × List Char) → Option α) : Option α :=
  match re with
  | .lit cs =>
    match dropLitCI cs input with
    | some rest => k rest gs
    | none => none
  | .cls p =>
    match input with
    | [] => none
    | c :: rest => if p c then k rest gs else none
  | .starCls p => trySuffixes (fun rest => k rest gs) (starSuffixes p input)
  | .plusCls p => trySuffixes (fun rest => k rest gs) (plusSuffixes p input)
  | .seq a b => mtch a input gs (fun rest gs1 => mtch b rest gs1 k)
  | .alt a b => (mtch a input gs k).orElse (fun _ => mtch b input gs k)
  | .opt a => (mtch a input gs k).orElse (fun _ => k input gs)
  | .grp i a =>
    mtch a input gs
      (fun rest gs1 => k rest ((i, input.take (input.length - rest.length)) :: gs1))

/-- Run the matcher anchored at the head of `input`; return the number of
consumed characters and the captures. -/
def runMatch (re : RE) (input : List Char) :
    Option (Nat × List (Nat × List Char)) :=
  mtch re input [] (fun rest gs => some (input.length - rest.length, gs))

/-- Content of capture group `i`; `""` when the group did not participate
in the match (Python's `re.findall` convention). -/
def lookupGrp (gs : List (Nat × List Char)) (i : Nat) : String :=
  match gs.find? (fun g => g.1 = i) with
  | some g => g.2.asString
  | none => ""

/-- `re.findall` for a two-group pattern: scan left to right, record the
two groups of each non-overlapping match, resume after each match (or one
character further for an empty match). -/
def findallF (re : RE) : Nat → List Char → List (String × String)
  | 0, _ => []
  | _, [] => []
  | fuel + 1, c :: rest =>
    match runMatch re (c :: rest) with
    | some (consumed, gs) =>
      (lookupGrp gs 1, lookupGrp gs 2) ::
        findallF re fuel ((c :: rest).drop (max consumed 1))
    | none => findallF re fuel rest

def findall (re : RE) (text : List Char) : List (String × String) :=
  findallF re text.length text

/-- Right-nested sequence of a nonempty list of regexes. -/
def seqs : List RE → RE
  | [] => .lit []
  | [r] => r
  | r :: rest => .seq r (seqs rest)

end Re

namespace FinancialDocumentTool

open Re

/-- The class `[^\n\$]`. -/
def notNlDollar (c : Char) : Bool := !(c = '\n' || c = '$')

/-- The class `[\d,.]` (ASCII digits). -/
def numChar (c : Char) : Bool := c.isDigit || c = ',' || c = '.'

/-- The unit-suffix group `(million|billion|thousand)`. -/
def unitsRE : RE := .alt (.lit "million".data) (.alt (.lit "billion".data) (.lit "thousand".data))

/-- The shared tail `[^\n\$]*\$?\s*([\d,.]+)\s*(million|billion|thousand)?`. -/
def amountTail : List RE :=
  [.starCls notNlDollar, .opt (.cls (fun c => c = '$')), .starCls Py.isSpace,
   .grp 1 (.plusCls numChar), .starCls Py.isSpace, .opt (.grp 2 unitsRE)]

/-- `r'(?:total\s+)?(?:net\s+)?(?:revenue|sales)[^\n\$]*\$?\s*([\d,.]+)\s*(million|billion|thousand)?'` -/
def revenueRE1 : RE :=
  seqs ([.opt (.seq (.lit "total".data) (.plusCls Py.isSpace)),
         .opt (.seq (.lit "net".data) (.plusCls Py.isSpace)),
         .alt (.lit "revenue".data) (.lit "sales".data)] ++ amountTail)

/-- `r'revenues?[^\n\$]*\$?\s*([\d,.]+)\s*(million|billion|thousand)?'` -/
def revenueRE2 : RE :=
  seqs ([.lit "revenue".data, .opt (.lit "s".data)] ++ amountTail)

/-- `r'net\s+income[^\n\$]*\$?\s*([\d,.]+)\s*(million|billion|thousand)?'` -/
def profitRE1 : RE :=
  seqs ([.lit "net".data, .plusCls Py.isSpace, .lit "income".data] ++ amountTail)

/-- `r'net\s+earnings[^\n\$]*\$?\s*([\d,.]+)\s*(million|billion|thousand)?'` -/
def profitRE2 : RE :=
  seqs ([.lit "net".data, .plusCls Py.isSpace, .lit "earnings".data] ++ amountTail)

/-- `r'total\s+assets[^\n\$]*\$?\s*([\d,.]+)\s*(million|billion|thousand)?'` -/
def assetRE1 : RE :=
  seqs ([.lit "total".data, .plusCls Py.isSpace, .lit "assets".data] ++ amountTail)

def revenue_patterns : List RE := [revenueRE1, revenueRE2]
def profit_patterns : List RE := [profitRE1, profitRE2]
def asset_patterns : List RE := [assetRE1]

/-- Model of the inner `extract_values` of `extract_financial_metrics`: try
the patterns in order; the first one whose `findall` is nonempty wins for
the category, keeping only the first 3 matches; `none` models "key absent". -/
def extract_values (text : List Char) : List RE → Option (List (String × String))
  | [] => none
  | p :: rest =>
    let ms := findall p text
    if ms.isEmpty then extract_values text rest
    else some (ms.take 3)

/-- The dictionary entry produced by one `extract_values` call: one
key/value pair when the category matched, nothing when it did not. -/
def metricsEntry (key : String) :
    Option (List (String × String)) → List (String × List (String × String))
  | some ms => [(key, ms)]
  | none => []

/-- Model of `FinancialDocumentTool.extract_financial_metrics`: the result
dictionary as an association list in insertion order
(revenue, net_income, total_assets); an absent key is simply not present. -/
def extract_financial_metrics (text : String) :
    List (String × List (String × String)) :=
  if text = "" then []
  else
    metricsEntry "revenue" (extract_values text.data revenue_patterns) ++
    metricsEntry "net_income" (extract_values text.data profit_patterns) ++
    metricsEntry "total_assets" (extract_values text.data asset_patterns)

end FinancialDocumentTool

/-- A successful `extract_values` result keeps at most the first 3 matches
of the winning pattern and is never the empty list. -/
theorem extract_values_bound {t : List Char} {ps : List Re.RE}
    {ms : List (String × String)}
    (h : FinancialDocumentTool.extract_values t ps = some ms) :
    ms.length ≤ 3 ∧ ms ≠ [] := by
  induction ps with
  | nil => simp [FinancialDocumentTool.extract_values] at h
  | cons p rest ih =>
    simp only [FinancialDocumentTool.extract_values] at h
    by_cases he : (Re.findall p t).isEmpty
    · rw [if_pos he] at h
      exact ih h
    · rw [if_neg he] at h
      obtain rfl : (Re.findall p t).take 3 = ms := by
        simpa using h
      refine ⟨List.length_take_le 3 _, ?_⟩
      intro hnil
      rcases List.take_eq_nil_iff.mp hnil with h3 | h0
      · exact absurd h3 (by decide)
      · simp [h0] at he

/-- Membership in a `metricsEntry` determines the `extract_values` result. -/
theorem mem_metricsEntry {kv : String × List (String × String)} {key : String}
    {r : Option (List (String × String))}
    (h : kv ∈ FinancialDocumentTool.metricsEntry key r) : r = some kv.2 := by
  cases r with
  | none => simp [FinancialDocumentTool.metricsEntry] at h
  | some ms =>
    simp only [FinancialDocumentTool.metricsEntry, List.mem_singleton] at h
    subst h
    rfl

/-- C4: metric extraction never raises (it is a total function); empty text
yields the empty mapping; on `"Total revenue was $1,234 million"` it yields
`{"revenue": [("1,234", "million")]}`; every category present holds at most
the first 3 matches and never an empty list; and for each category the
first pattern whose `findall` is nonempty wins, its first 3 matches being
kept and later patterns being ignored, while a pattern with no match passes
to the next. -/
theorem extract_financial_metrics_contract :
    FinancialDocumentTool.extract_financial_metrics "" = [] ∧
    FinancialDocumentTool.extract_financial_metrics "Total revenue was $1,234 million" =
      [("revenue", [("1,234", "million")])] ∧
    (∀ text kv, kv ∈ FinancialDocumentTool.extract_financial_metrics text →
      kv.2.length ≤ 3 ∧ kv.2 ≠ []) ∧
    (∀ t p rest, Re.findall p t ≠ [] →
      FinancialDocumentTool.extract_values t (p :: rest) =
        some ((Re.findall p t).take 3)) ∧
    (∀ t p rest, Re.findall p t = [] →
      FinancialDocumentTool.extract_values t (p :: rest) =
        FinancialDocumentTool.extract_values t rest) := by
  refine ⟨rfl, by decide, ?_, ?_, ?_⟩
  · intro text kv hkv
    by_cases ht : text = ""
    · simp [FinancialDocumentTool.extract_financial_metrics, ht] at hkv
    · simp only [FinancialDocumentTool.extract_financial_metrics, if_neg ht,
        List.mem_append] at hkv
      rcases hkv with (h | h) | h <;>
        exact extract_values_bound (mem_metricsEntry h)
  · intro t p rest hne
    simp [FinancialDocumentTool.extract_values, List.isEmpty_iff, hne]
  · intro t p rest hemp
    simp [FinancialDocumentTool.extract_values, List.isEmpty_iff, hemp]

/-- Closed instance of `extract_financial_metrics_contract`, discharging its
hypotheses on the spec's example text. -/
theorem extract_financial_metrics_contract_witness :
    (("revenue", [("1,234", "million")]) :
        String × List (String × String)).2.length ≤ 3 ∧
    FinancialDocumentTool.extract_values
        "Total revenue was $1,234 million".data
        (FinancialDocumentTool.revenueRE1 :: [FinancialDocumentTool.revenueRE2]) =
      some ((Re.findall FinancialDocumentTool.revenueRE1
        "Total revenue was $1,234 million".data).take 3) := by
  refine ⟨(extract_financial_metrics_contract.2.2.1
      "Total revenue was $1,234 million"
      ("revenue", [("1,234", "million")]) (by decide)).1, ?_⟩
  exact extract_financial_metrics_contract.2.2.2.1
    "Total revenue was $1,234 million".data
    FinancialDocumentTool.revenueRE1 [FinancialDocumentTool.revenueRE2] (by decide)

namespace FinancialDocumentTool

/-- A table as returned by pdfplumber's `page.extract_tables()`: rows of
optional cell strings. -/
abbrev PdfTable := List (List (Option String))

/-- One pdfplumber page as consulted by `_extract_with_pdfplumber`:
`page.extract_text()` may return `None` (turned into `""` by `or ""`), and
the per-page `try`/`except` around `page.extract_tables()` is modelled by an
`Option` (`none` = the table extraction raised and is skipped). -/
structure PdfPage where
  text : Option String
  tables : Option (List PdfTable)
deriving DecidableEq

/-- `str(cell).strip() if cell else ""`: a `None` or empty cell renders as
`""` at its position; any other cell is stripped. -/
def cellStr : Option String → String
  | some c => if c = "" then "" else Py.stripStr c
  | none => ""

/-- Model of `FinancialDocumentTool._format_table_text`: rows joined by
newlines, the cells of each nonempty row joined by `" | "`; empty rows are
skipped (`if row:`). -/
def format_table_text (table : PdfTable) : String :=
  if table = [] then ""
  else
    String.intercalate "\n"
      (table.filterMap fun row =>
        if row = [] then none
        else some (String.intercalate " | " (row.map cellStr)))

/-- The `[Table k]` blocks of one page; `k` counts from `n + 1` (the source
enumerates each page's tables from 0 and tags with `table_num + 1`). -/
def tableBlocks : Nat → List PdfTable → String
  | _, [] => ""
  | n, t :: rest =>
    "\n[Table " ++ toString (n + 1) ++ "]\n" ++ format_table_text t ++ "\n" ++
      tableBlocks (n + 1) rest

/-- The table part of one page; nothing when `extract_tables` raised. -/
def pageTables : Option (List PdfTable) → String
  | none => ""
  | some ts => tableBlocks 0 ts

/-- Model of `_extract_with_pdfplumber` from 0-based page number `n` on. -/
def pdfplumberFrom : Nat → List PdfPage → String
  | _, [] => ""
  | n, p :: rest =>
    "\n[Page " ++ toString (n + 1) ++ "]\n" ++ p.text.getD "" ++ "\n" ++
      pageTables p.tables ++ pdfplumberFrom (n + 1) rest

/-- Model of `FinancialDocumentTool._extract_with_pdfplumber`. -/
def extract_with_pdfplumber (pages : List PdfPage) : String :=
  pdfplumberFrom 0 pages

/-- Model of `_extract_with_pymupdf` (each page's `get_text()` result). -/
def pymupdfFrom : Nat → List String → String
  | _, [] => ""
  | n, t :: rest =>
    "\n[Page " ++ toString (n + 1) ++ "]\n" ++ t ++ "\n" ++ pymupdfFrom (n + 1) rest

def extract_with_pymupdf (pages : List String) : String := pymupdfFrom 0 pages

/-- Model of `_extract_with_pypdf2` (each page's `extract_text() or ""`). -/
def pypdf2From : Nat → List (Option String) → String
  | _, [] => ""
  | n, t :: rest =>
    "\n[Page " ++ toString (n + 1) ++ "]\n" ++ t.getD "" ++ "\n" ++ pypdf2From (n + 1) rest

def extract_with_pypdf2 (pages : List (Option String)) : String := pypdf2From 0 pages

/-- `t` occurs as a contiguous substring of `s`. -/
def strContains (s t : String) : Prop :=
  ∃ pre post : List Char, s.data = pre ++ t.data ++ post

/-- A 3-page document with one table on page 2, for the end-to-end claim. -/
def examplePdfPages : List PdfPage :=
  [⟨some "Income statement summary", some []⟩,
   ⟨some "Balance sheet",
     some [[[some "Assets", none, some "2023"], [some "Cash", some "", some "100"]]]⟩,
   ⟨some "Notes", some []⟩]

end FinancialDocumentTool

/-- Substring containment transfers through an enclosing split. -/
theorem strContains_sub {m t s : String} (h1 : FinancialDocumentTool.strContains m t)
    (pre post : List Char) (h2 : s.data = pre ++ m.data ++ post) :
    FinancialDocumentTool.strContains s t := by
  obtain ⟨p1, p2, hm⟩ := h1
  exact ⟨pre ++ p1, p2 ++ post, by simp [h2, hm, List.append_assoc]⟩

/-- Every page `i` (0-based) contributes a `[Page i+1]` tag to the
pdfplumber output, whatever the starting page number `n`. -/
theorem pdfplumberFrom_page_tag :
    ∀ (pages : List FinancialDocumentTool.PdfPage) (n i : Nat), i < pages.length →
      FinancialDocumentTool.strContains (FinancialDocumentTool.pdfplumberFrom n pages)
        ("\n[Page " ++ toString (n + i + 1) ++ "]\n") := by
  intro pages
  induction pages with
  | nil => intro n i h; simp at h
  | cons p rest ih =>
    intro n i h
    cases i with
    | zero =>
      refine ⟨[], (p.text.getD "" ++ "\n" ++ FinancialDocumentTool.pageTables p.tables ++
        FinancialDocumentTool.pdfplumberFrom (n + 1) rest).data, ?_⟩
      simp [FinancialDocumentTool.pdfplumberFrom, String.data_append, List.append_assoc]
    | succ j =>
      have hj : j < rest.length := by simpa using Nat.lt_of_succ_lt_succ h
      have hih := ih (n + 1) j hj
      rw [show n + (j + 1) + 1 = (n + 1) + j + 1 by omega]
      refine strContains_sub hih
        (("\n[Page " ++ toString (n + 1) ++ "]\n" ++ p.text.getD "" ++ "\n" ++
          FinancialDocumentTool.pageTables p.tables).data) [] ?_
      simp [FinancialDocumentTool.pdfplumberFrom, String.data_append, List.append_assoc]

/-- Same for the PyMuPDF strategy. -/
theorem pymupdfFrom_page_tag :
    ∀ (pages : List String) (n i : Nat), i < pages.length →
      FinancialDocumentTool.strContains (FinancialDocumentTool.pymupdfFrom n pages)
        ("\n[Page " ++ toString (n + i + 1) ++ "]\n") := by
  intro pages
  induction pages with
  | nil => intro n i h; simp at h
  | cons p rest ih =>
    intro n i h
    cases i with
    | zero =>
      refine ⟨[], (p ++ "\n" ++ FinancialDocumentTool.pymupdfFrom (n + 1) rest).data, ?_⟩
      simp [FinancialDocumentTool.pymupdfFrom, String.data_append, List.append_assoc]
    | succ j =>
      have hj : j < rest.length := by simpa using Nat.lt_of_succ_lt_succ h
      have hih := ih (n + 1) j hj
      rw [show n + (j + 1) + 1 = (n + 1) + j + 1 by omega]
      refine strContains_sub hih
        (("\n[Page " ++ toString (n + 1) ++ "]\n" ++ p ++ "\n").data) [] ?_
      simp [FinancialDocumentTool.pymupdfFrom, String.data_append, List.append_assoc]

/-- Same for the PyPDF2 strategy. -/
theorem pypdf2From_page_tag :
    ∀ (pages : List (Option String)) (n i : Nat), i < pages.length →
      FinancialDocumentTool.strContains (FinancialDocumentTool.pypdf2From n pages)
        ("\n[Page " ++ toString (n + i + 1) ++ "]\n") := by
  intro pages
  induction pages with
  | nil => intro n i h; simp at h
  | cons p rest ih =>
    intro n i h
    cases i with
    | zero =>
      refine ⟨[], (p.getD "" ++ "\n" ++ FinancialDocumentTool.pypdf2From (n + 1) rest).data, ?_⟩
      simp [FinancialDocumentTool.pypdf2From, String.data_append, List.append_assoc]
    | succ j =>
      have hj : j < rest.length := by simpa using Nat.lt_of_succ_lt_succ h
      have hih := ih (n + 1) j hj
      rw [show n + (j + 1) + 1 = (n + 1) + j + 1 by omega]
      refine strContains_sub hih
        (("\n[Page " ++ toString (n + 1) ++ "]\n" ++ p.getD "" ++ "\n").data) [] ?_
      simp [FinancialDocumentTool.pypdf2From, String.data_append, List.append_assoc]

/-- Table `j` (0-based) of a page contributes a `[Table n+j+1]` block
holding its formatted text. -/
theorem tableBlocks_tag :
    ∀ (ts : List FinancialDocumentTool.PdfTable) (n j : Nat)
      (t : FinancialDocumentTool.PdfTable), ts.get? j = some t →
      FinancialDocumentTool.strContains (FinancialDocumentTool.tableBlocks n ts)
        ("\n[Table " ++ toString (n + j + 1) ++ "]\n" ++
          FinancialDocumentTool.format_table_text t ++ "\n") := by
  intro ts
  induction ts with
  | nil => intro n j t h; simp at h
  | cons t0 rest ih =>
    intro n j t h
    cases j with
    | zero =>
      obtain rfl : t0 = t := by simpa using h
      refine ⟨[], (FinancialDocumentTool.tableBlocks (n + 1) rest).data, ?_⟩
      simp [FinancialDocumentTool.tableBlocks, String.data_append, List.append_assoc]
    | succ j' =>
      have h' : rest.get? j' = some t := by simpa using h
      have hih := ih (n + 1) j' t h'
      rw [show n + (j' + 1) + 1 = (n + 1) + j' + 1 by omega]
      refine strContains_sub hih
        (("\n[Table " ++ toString (n + 1) ++ "]\n" ++
          FinancialDocumentTool.format_table_text t0 ++ "\n").data) [] ?_
      simp [FinancialDocumentTool.tableBlocks, String.data_append, List.append_assoc]

/-- Every table of every page appears in the pdfplumber output as its own
tagged block. -/
theorem pdfplumberFrom_table_tag :
    ∀ (pages : List FinancialDocumentTool.PdfPage) (n : Nat)
      (p : FinancialDocumentTool.PdfPage)
      (ts : List FinancialDocumentTool.PdfTable) (j : Nat)
      (t : FinancialDocumentTool.PdfTable),
      p ∈ pages → p.tables = some ts → ts.get? j = some t →
      FinancialDocumentTool.strContains (FinancialDocumentTool.pdfplumberFrom n pages)
        ("\n[Table " ++ toString (j + 1) ++ "]\n" ++
          FinancialDocumentTool.format_table_text t ++ "\n") := by
  intro pages
  induction pages with
  | nil => intro n p ts j t hmem; simp at hmem
  | cons p0 rest ih =>
    intro n p ts j t hmem hts hj
    rcases List.mem_cons.mp hmem with rfl | hmem'
    · have htb := tableBlocks_tag ts 0 j t hj
      rw [show (0 : Nat) + j + 1 = j + 1 by omega] at htb
      have hpt : FinancialDocumentTool.pageTables p.tables =
          FinancialDocumentTool.tableBlocks 0 ts := by
        rw [hts]; rfl
      refine strContains_sub (hpt ▸ htb)
        (("\n[Page " ++ toString (n + 1) ++ "]\n" ++ p.text.getD "" ++ "\n").data)
        ((FinancialDocumentTool.pdfplumberFrom (n + 1) rest).data) ?_
      simp [FinancialDocumentTool.pdfplumberFrom, String.data_append, List.append_assoc]
    · have hih := ih (n + 1) p ts j t hmem' hts hj
      refine strContains_sub hih
        (("\n[Page " ++ toString (n + 1) ++ "]\n" ++ p0.text.getD "" ++ "\n" ++
          FinancialDocumentTool.pageTables p0.tables).data) [] ?_
      simp [FinancialDocumentTool.pdfplumberFrom, String.data_append, List.append_assoc]

/-- C7: every PDF strategy tags page `i`'s text with the 1-indexed tag
`[Page i+1]`; the table-aware (pdfplumber) strategy additionally emits each
table of each page as a separate `[Table k]` block (`k` 1-indexed per page)
whose rows are the cells joined by the vertical-bar separator, with
null/empty cells rendered as empty strings at their positions (never
dropped); and on a 3-page document with one table on page 2 the output is
exactly three `[Page N]` blocks and one `[Table 1]` block with
pipe-separated cells. -/
theorem pdf_strategies_page_and_table_tags :
    (∀ (pages : List FinancialDocumentTool.PdfPage) (i : Nat), i < pages.length →
      FinancialDocumentTool.strContains
        (FinancialDocumentTool.extract_with_pdfplumber pages)
        ("\n[Page " ++ toString (i + 1) ++ "]\n")) ∧
    (∀ (pages : List String) (i : Nat), i < pages.length →
      FinancialDocumentTool.strContains
        (FinancialDocumentTool.extract_with_pymupdf pages)
        ("\n[Page " ++ toString (i + 1) ++ "]\n")) ∧
    (∀ (pages : List (Option String)) (i : Nat), i < pages.length →
      FinancialDocumentTool.strContains
        (FinancialDocumentTool.extract_with_pypdf2 pages)
        ("\n[Page " ++ toString (i + 1) ++ "]\n")) ∧
    (∀ (pages : List FinancialDocumentTool.PdfPage)
      (p : FinancialDocumentTool.PdfPage)
      (ts : List FinancialDocumentTool.PdfTable) (j : Nat)
      (t : FinancialDocumentTool.PdfTable),
      p ∈ pages → p.tables = some ts → ts.get? j = some t →
      FinancialDocumentTool.strContains
        (FinancialDocumentTool.extract_with_pdfplumber pages)
        ("\n[Table " ++ toString (j + 1) ++ "]\n" ++
          FinancialDocumentTool.format_table_text t ++ "\n")) ∧
    FinancialDocumentTool.cellStr none = "" ∧
    FinancialDocumentTool.cellStr (some "") = "" ∧
    (∀ row : List (Option String),
      (row.map FinancialDocumentTool.cellStr).length = row.length) ∧
    FinancialDocumentTool.extract_with_pdfplumber
        FinancialDocumentTool.examplePdfPages =
      "\n[Page 1]\nIncome statement summary\n\n[Page 2]\nBalance sheet\n\n[Table 1]\nAssets |  | 2023\nCash |  | 100\n\n[Page 3]\nNotes\n" := by
  refine ⟨?_, ?_, ?_, ?_, rfl, rfl, fun row => List.length_map row _, by decide⟩
  · intro pages i h
    have h0 := pdfplumberFrom_page_tag pages 0 i h
    rwa [show (0 : Nat) + i + 1 = i + 1 by omega] at h0
  · intro pages i h
    have h0 := pymupdfFrom_page_tag pages 0 i h
    rwa [show (0 : Nat) + i + 1 = i + 1 by omega] at h0
  · intro pages i h
    have h0 := pypdf2From_page_tag pages 0 i h
    rwa [show (0 : Nat) + i + 1 = i + 1 by omega] at h0
  · intro pages p ts j t hmem hts hj
    exact pdfplumberFrom_table_tag pages 0 p ts j t hmem hts hj

/-- Closed instance of `pdf_strategies_page_and_table_tags` on the 3-page
example with one table on page 2. -/
theorem pdf_strategies_page_and_table_tags_witness :
    FinancialDocumentTool.strContains
      (FinancialDocumentTool.extract_with_pdfplumber
        FinancialDocumentTool.examplePdfPages)
      ("\n[Page " ++ toString (2 + 1) ++ "]\n") ∧
    FinancialDocumentTool.strContains
      (FinancialDocumentTool.extract_with_pdfplumber
        FinancialDocumentTool.examplePdfPages)
      ("\n[Table " ++ toString (0 + 1) ++ "]\n" ++
        FinancialDocumentTool.format_table_text
          [[some "Assets", none, some "2023"], [some "Cash", some "", some "100"]] ++
        "\n") := by
  refine ⟨pdf_strategies_page_and_table_tags.1
    FinancialDocumentTool.examplePdfPages 2 (by decide), ?_⟩
  exact pdf_strategies_page_and_table_tags.2.2.2.1
    FinancialDocumentTool.examplePdfPages
    ⟨some "Balance sheet",
      some [[[some "Assets", none, some "2023"], [some "Cash", some "", some "100"]]]⟩
    [[[some "Assets", none, some "2023"], [some "Cash", some "", some "100"]]] 0
    [[some "Assets", none, some "2023"], [some "Cash", some "", some "100"]]
    (by decide) rfl rfl

namespace AnalysisService

/-- Python values as they flow through `process_financial_document`:
the types named in `_clean`'s `isinstance` check (`str`, `int`, `float`,
`bool`, `dict`, `list`), `None`, and a catch-all `obj` for every other
object, carrying its `str(...)` rendering.  A float is a rational or `none`
for the non-finite values. -/
inductive PyVal where
  | none
  | bool (b : Bool)
  | int (n : Int)
  | float (q : Option Rat)
  | str (s : String)
  | list (xs : List PyVal)
  | dict (kvs : List (PyVal × PyVal))
  | obj (reprStr : String)

/-- Model of the inner `_clean` of `process_financial_document`: `None` and
the primitive/container types pass through unchanged, anything else becomes
its string representation. -/
def cleanOutput : PyVal → PyVal
  | .none => .none
  | .bool b => .bool b
  | .int n => .int n
  | .float q => .float q
  | .str s => .str s
  | .list xs => .list xs
  | .dict kvs => .dict kvs
  | .obj r => .str r

mutual

/-- Whether `json.dumps` (with default settings) accepts the value — this is
exactly the success condition of the source's round-trip check
`json.loads(json.dumps(payload))`, since `loads` always succeeds on `dumps`
output.  Primitives are accepted, lists of accepted values are accepted,
dicts need accepted values and keys of primitive type; any other object
raises `TypeError`. -/
def encodable : PyVal → Bool
  | .none => true
  | .bool _ => true
  | .int _ => true
  | .float _ => true
  | .str _ => true
  | .list xs => encodableList xs
  | .dict kvs => encodableDict kvs
  | .obj _ => false

def encodableList : List PyVal → Bool
  | [] => true
  | v :: rest => encodable v && encodableList rest

def encodableDict : List (PyVal × PyVal) → Bool
  | [] => true
  | (k, v) :: rest => encodableKey k && encodable v && encodableDict rest

/-- `json.dumps` accepts exactly primitive-typed dict keys. -/
def encodableKey : PyVal → Bool
  | .none => true
  | .bool _ => true
  | .int _ => true
  | .float _ => true
  | .str _ => true
  | _ => false

end

/-- The states of `DocumentStatus` in `models/document.py`. -/
inductive DocumentStatus where
  | uploaded
  | processing
  | completed
  | failed
deriving DecidableEq

/-- The `Document` record of `models/document.py`, with timestamps as
abstract `Nat`s. -/
structure Document where
  externalId : String
  originalFilename : String
  filename : String
  filePath : String
  fileSize : Nat
  contentType : String
  uploadedBy : String
  uploadDate : Nat
  processedDate : Option Nat
  status : DocumentStatus
  analysis : Option PyVal
  error : Option String

/-- What one crew task does when it runs: produce an output value or raise
with a message. -/
inductive TaskOutcome where
  | ok (out : PyVal)
  | raises (msg : String)

/-- Modelled from the spec: `Crew(process=Process.sequential).kickoff_async`
is external-library code, not part of this repository.  Per the spec's
execution model and failure policy, the four tasks run strictly in order
and the first raising task aborts the run immediately, its error
propagating; tasks after it never execute (the result does not depend on
them). -/
def runSequential : List TaskOutcome → Except String (List PyVal)
  | [] => .ok []
  | .ok v :: rest => (runSequential rest).map (v :: ·)
  | .raises msg :: _ => .error msg

/-- What `process_financial_document` returns to the caller: `"NO_DOC"`,
`"OK"`, or a re-raised exception with its message. -/
inductive RunResult where
  | noDoc
  | ok
  | raised (msg : String)
deriving DecidableEq

/-- The payload dict assembled on the success path, from the four task
outputs (in task order), the query, the file path and the
`generated_at` timestamp string. -/
def buildPayload (outs : List PyVal) (query filePath generatedAt : String) : PyVal :=
  .dict [(.str "verification", cleanOutput (outs.getD 0 .none)),
         (.str "analysis", cleanOutput (outs.getD 1 .none)),
         (.str "risk", cleanOutput (outs.getD 2 .none)),
         (.str "recommendation", cleanOutput (outs.getD 3 .none)),
         (.str "query_used", .str query),
         (.str "source", .str filePath),
         (.str "generated_at", .str generatedAt)]

/-- Model of `process_financial_document`.  `doc` is the looked-up record
(`None` gives `"NO_DOC"`).  The four task outcomes are the delegated work of
the four stages.  `now` stands for `datetime.utcnow()`, `generatedAt` for
the ISO timestamp string, and `encMsg` for `str(e)` of the `TypeError` that
`json.dumps` raises on a non-encodable payload (that exception is caught by
the same `except` clause).  On any raised error the record is saved with
status FAILED, the message verbatim in `error` and `processed_date` set,
and the error re-raises; on success the payload is stored, status COMPLETED
and `error` cleared. -/
def process_financial_document (doc : Option Document)
    (s1 s2 s3 s4 : TaskOutcome) (query filePath generatedAt : String)
    (now : Nat) (encMsg : String) : Option Document × RunResult :=
  match doc with
  | Option.none => (Option.none, .noDoc)
  | some d =>
    match runSequential [s1, s2, s3, s4] with
    | .error msg =>
      (some { d with status := .failed, processedDate := some now,
                     error := some msg },
       .raised msg)
    | .ok outs =>
      let payload := buildPayload outs query filePath generatedAt
      if encodable payload then
        (some { d with analysis := some payload, status := .completed,
                       processedDate := some now, error := Option.none },
         .ok)
      else
        (some { d with status := .failed, processedDate := some now,
                       error := some encMsg },
         .raised encMsg)

end AnalysisService

/-- A fixed sample document record for closed instances. -/
def sampleDoc : AnalysisService.Document :=
  { externalId := "ext-1", originalFilename := "report.pdf",
    filename := "report.pdf", filePath := "uploads/report.pdf",
    fileSize := 1024, contentType := "application/pdf", uploadedBy := "u1",
    uploadDate := 0, processedDate := Option.none,
    status := AnalysisService.DocumentStatus.processing,
    analysis := some (AnalysisService.PyVal.str "older analysis"),
    error := Option.none }

/-- C3: if any stage's delegated work raises, the remaining stages are
never executed (the run's outcome does not depend on them), the document
record is saved with status FAILED, `processed_date` set and the
triggering message verbatim in `error`, and the same error re-raises to
the caller, with no stage-level retry (each outcome is consulted at most
once by construction of `runSequential`). -/
theorem pipeline_failfast :
    (∀ (pre post : List AnalysisService.TaskOutcome) (m : String),
      (∀ s ∈ pre, ∃ v, s = AnalysisService.TaskOutcome.ok v) →
      AnalysisService.runSequential
          (pre ++ AnalysisService.TaskOutcome.raises m :: post) =
        Except.error m) ∧
    (∀ (d : AnalysisService.Document) s1 s2 s3 s4 query fp gen now encMsg m,
      AnalysisService.runSequential [s1, s2, s3, s4] = Except.error m →
      AnalysisService.process_financial_document (some d) s1 s2 s3 s4
          query fp gen now encMsg =
        (some { d with status := AnalysisService.DocumentStatus.failed,
                       processedDate := some now, error := some m },
         AnalysisService.RunResult.raised m)) := by
  constructor
  · intro pre post m
    induction pre with
    | nil => intro _; rfl
    | cons s rest ih =>
      intro hpre
      obtain ⟨v, rfl⟩ := hpre s (List.mem_cons_self s rest)
      have hrest := ih fun t ht => hpre t (List.mem_cons_of_mem _ ht)
      simp [AnalysisService.runSequential, hrest, Except.map]
  · intro d s1 s2 s3 s4 query fp gen now encMsg m h
    simp [AnalysisService.process_financial_document, h]

/-- Closed instance of `pipeline_failfast`: stage 2 raises `"boom"`, stages
3 and 4 are present but irrelevant, and the record moves to FAILED with the
message verbatim. -/
theorem pipeline_failfast_witness :
    AnalysisService.runSequential
        ([AnalysisService.TaskOutcome.ok (AnalysisService.PyVal.str "report")] ++
          AnalysisService.TaskOutcome.raises "boom" ::
            [AnalysisService.TaskOutcome.ok AnalysisService.PyVal.none,
             AnalysisService.TaskOutcome.ok AnalysisService.PyVal.none]) =
      Except.error "boom" ∧
    AnalysisService.process_financial_document (some sampleDoc)
        (AnalysisService.TaskOutcome.ok (AnalysisService.PyVal.str "report"))
        (AnalysisService.TaskOutcome.raises "boom")
        (AnalysisService.TaskOutcome.ok AnalysisService.PyVal.none)
        (AnalysisService.TaskOutcome.ok AnalysisService.PyVal.none)
        "q" "f" "2024-01-01T00:00:00Z" 7 "enc" =
      (some { sampleDoc with status := AnalysisService.DocumentStatus.failed,
                             processedDate := some 7, error := some "boom" },
       AnalysisService.RunResult.raised "boom") := by
  refine ⟨pipeline_failfast.1 _ _ "boom" ?_, pipeline_failfast.2 sampleDoc _ _ _ _
    "q" "f" "2024-01-01T00:00:00Z" 7 "enc" "boom" rfl⟩
  intro s hs
  rw [List.mem_singleton] at hs
  exact ⟨AnalysisService.PyVal.str "report", hs⟩

/-- C9: every failing run — whether a stage raised or the payload failed
the `json.dumps` round-trip check (the `TypeError` is caught by the same
`except` clause) — saves a record that differs from the looked-up one only
in `status`, `processed_date` and `error`; in particular a previously
stored `analysis` payload survives, and `analysis` is overwritten exactly
on the successful path. -/
theorem pipeline_failure_frame :
    (∀ (d : AnalysisService.Document) s1 s2 s3 s4 query fp gen now encMsg m,
      (AnalysisService.process_financial_document (some d) s1 s2 s3 s4
          query fp gen now encMsg).2 = AnalysisService.RunResult.raised m →
      ∃ d', (AnalysisService.process_financial_document (some d) s1 s2 s3 s4
          query fp gen now encMsg).1 = some d' ∧
        d'.analysis = d.analysis ∧
        d'.externalId = d.externalId ∧
        d'.originalFilename = d.originalFilename ∧
        d'.filename = d.filename ∧
        d'.filePath = d.filePath ∧
        d'.fileSize = d.fileSize ∧
        d'.contentType = d.contentType ∧
        d'.uploadedBy = d.uploadedBy ∧
        d'.uploadDate = d.uploadDate ∧
        d'.status = AnalysisService.DocumentStatus.failed ∧
        d'.processedDate = some now ∧
        d'.error = some m) ∧
    (∀ (d : AnalysisService.Document) s1 s2 s3 s4 query fp gen now encMsg outs,
      AnalysisService.runSequential [s1, s2, s3, s4] = Except.ok outs →
      AnalysisService.encodable
          (AnalysisService.buildPayload outs query fp gen) = true →
      ∃ d', (AnalysisService.process_financial_document (some d) s1 s2 s3 s4
          query fp gen now encMsg).1 = some d' ∧
        d'.analysis =
          some (AnalysisService.buildPayload outs query fp gen)) := by
  constructor
  · intro d s1 s2 s3 s4 query fp gen now encMsg m h
    cases hrun : AnalysisService.runSequential [s1, s2, s3, s4] with
    | error msg =>
      obtain rfl : msg = m := by
        simpa [AnalysisService.process_financial_document, hrun] using h
      refine ⟨{ d with status := AnalysisService.DocumentStatus.failed, processedDate := some now, error := some msg }, ?_, rfl, rfl, rfl, rfl, rfl, rfl, rfl, rfl, rfl, rfl, rfl, rfl⟩
      simp [AnalysisService.process_financial_document, hrun]
    | ok outs =>
      by_cases henc : AnalysisService.encodable
          (AnalysisService.buildPayload outs query fp gen) = true
      · exfalso
        simp [AnalysisService.process_financial_document, hrun, henc] at h
      · obtain rfl : encMsg = m := by
          simpa [AnalysisService.process_financial_document, hrun, henc] using h
        refine ⟨{ d with status := AnalysisService.DocumentStatus.failed, processedDate := some now, error := some encMsg }, ?_, rfl, rfl, rfl, rfl, rfl, rfl, rfl, rfl, rfl, rfl, rfl, rfl⟩
        simp [AnalysisService.process_financial_document, hrun, henc]
  · intro d s1 s2 s3 s4 query fp gen now encMsg outs h henc
    refine ⟨{ d with analysis := some (AnalysisService.buildPayload outs query fp gen), status := AnalysisService.DocumentStatus.completed, processedDate := some now, error := Option.none }, ?_, rfl⟩
    simp [AnalysisService.process_financial_document, h, henc]

/-- Closed instances of `pipeline_failure_frame`, one per failure mode: a
raising stage 1, and a run whose four stages all succeed but whose payload
fails the round-trip check (a stage output list holding a non-serializable
object passes `_clean` unchanged); both keep the pre-existing analysis
payload. -/
theorem pipeline_failure_frame_witness :
    (∃ d', (AnalysisService.process_financial_document (some sampleDoc)
        (AnalysisService.TaskOutcome.raises "stage 1 failed")
        (AnalysisService.TaskOutcome.ok AnalysisService.PyVal.none)
        (AnalysisService.TaskOutcome.ok AnalysisService.PyVal.none)
        (AnalysisService.TaskOutcome.ok AnalysisService.PyVal.none)
        "q" "f" "g" 9 "enc").1 = some d' ∧
      d'.analysis = sampleDoc.analysis ∧
      d'.externalId = sampleDoc.externalId ∧
      d'.originalFilename = sampleDoc.originalFilename ∧
      d'.filename = sampleDoc.filename ∧
      d'.filePath = sampleDoc.filePath ∧
      d'.fileSize = sampleDoc.fileSize ∧
      d'.contentType = sampleDoc.contentType ∧
      d'.uploadedBy = sampleDoc.uploadedBy ∧
      d'.uploadDate = sampleDoc.uploadDate ∧
      d'.status = AnalysisService.DocumentStatus.failed ∧
      d'.processedDate = some 9 ∧
      d'.error = some "stage 1 failed") ∧
    (∃ d', (AnalysisService.process_financial_document (some sampleDoc)
        (AnalysisService.TaskOutcome.ok
          (AnalysisService.PyVal.list [AnalysisService.PyVal.obj "<Crew object>"]))
        (AnalysisService.TaskOutcome.ok AnalysisService.PyVal.none)
        (AnalysisService.TaskOutcome.ok AnalysisService.PyVal.none)
        (AnalysisService.TaskOutcome.ok AnalysisService.PyVal.none)
        "q" "f" "g" 9
        "Object of type Crew is not JSON serializable").1 = some d' ∧
      d'.analysis = sampleDoc.analysis ∧
      d'.externalId = sampleDoc.externalId ∧
      d'.originalFilename = sampleDoc.originalFilename ∧
      d'.filename = sampleDoc.filename ∧
      d'.filePath = sampleDoc.filePath ∧
      d'.fileSize = sampleDoc.fileSize ∧
      d'.contentType = sampleDoc.contentType ∧
      d'.uploadedBy = sampleDoc.uploadedBy ∧
      d'.uploadDate = sampleDoc.uploadDate ∧
      d'.status = AnalysisService.DocumentStatus.failed ∧
      d'.processedDate = some 9 ∧
      d'.error = some "Object of type Crew is not JSON serializable") :=
  ⟨pipeline_failure_frame.1 sampleDoc _ _ _ _ "q" "f" "g" 9 "enc"
    "stage 1 failed" rfl,
   pipeline_failure_frame.1 sampleDoc _ _ _ _ "q" "f" "g" 9
    "Object of type Crew is not JSON serializable"
    "Object of type Crew is not JSON serializable" rfl⟩

/-- C6: the result assembler's `_clean` passes `None` and every
primitive/container value through unchanged and converts any other object
via its string representation; and whenever the run completes successfully
the persisted payload has passed the JSON encode/decode round-trip check
(`encodable` is exactly the success condition of
`json.loads(json.dumps(payload))`). -/
theorem result_assembler_json_safe :
    AnalysisService.cleanOutput AnalysisService.PyVal.none =
      AnalysisService.PyVal.none ∧
    (∀ b, AnalysisService.cleanOutput (AnalysisService.PyVal.bool b) =
      AnalysisService.PyVal.bool b) ∧
    (∀ n, AnalysisService.cleanOutput (AnalysisService.PyVal.int n) =
      AnalysisService.PyVal.int n) ∧
    (∀ q, AnalysisService.cleanOutput (AnalysisService.PyVal.float q) =
      AnalysisService.PyVal.float q) ∧
    (∀ s, AnalysisService.cleanOutput (AnalysisService.PyVal.str s) =
      AnalysisService.PyVal.str s) ∧
    (∀ xs, AnalysisService.cleanOutput (AnalysisService.PyVal.list xs) =
      AnalysisService.PyVal.list xs) ∧
    (∀ kvs, AnalysisService.cleanOutput (AnalysisService.PyVal.dict kvs) =
      AnalysisService.PyVal.dict kvs) ∧
    (∀ r, AnalysisService.cleanOutput (AnalysisService.PyVal.obj r) =
      AnalysisService.PyVal.str r) ∧
    (∀ doc s1 s2 s3 s4 query fp gen now encMsg d',
      (AnalysisService.process_financial_document doc s1 s2 s3 s4
        query fp gen now encMsg).2 = AnalysisService.RunResult.ok →
      (AnalysisService.process_financial_document doc s1 s2 s3 s4
        query fp gen now encMsg).1 = some d' →
      d'.status = AnalysisService.DocumentStatus.completed ∧
      ∃ p, d'.analysis = some p ∧ AnalysisService.encodable p = true) := by
  refine ⟨rfl, fun _ => rfl, fun _ => rfl, fun _ => rfl, fun _ => rfl,
    fun _ => rfl, fun _ => rfl, fun _ => rfl, ?_⟩
  intro doc s1 s2 s3 s4 query fp gen now encMsg d' hok hd
  cases doc with
  | none => simp [AnalysisService.process_financial_document] at hok
  | some d =>
    cases hrun : AnalysisService.runSequential [s1, s2, s3, s4] with
    | error m =>
      simp [AnalysisService.process_financial_document, hrun] at hok
    | ok outs =>
      by_cases henc : AnalysisService.encodable
          (AnalysisService.buildPayload outs query fp gen) = true
      · simp only [AnalysisService.process_financial_document, hrun,
          henc, if_pos] at hd
        obtain rfl : _ = d' := Option.some.inj hd
        exact ⟨rfl, AnalysisService.buildPayload outs query fp gen, rfl, henc⟩
      · simp [AnalysisService.process_financial_document, hrun, henc] at hok

/-- Closed instance of `result_assembler_json_safe`: a successful run
persists a payload that passed the round-trip check. -/
theorem result_assembler_json_safe_witness :
    ({ sampleDoc with
        analysis := some (AnalysisService.buildPayload
          [AnalysisService.PyVal.str "v", AnalysisService.PyVal.str "a",
           AnalysisService.PyVal.str "r", AnalysisService.PyVal.str "i"]
          "q" "f" "g"),
        status := AnalysisService.DocumentStatus.completed,
        processedDate := some 3,
        error := Option.none } : AnalysisService.Document).status =
      AnalysisService.DocumentStatus.completed ∧
    ∃ p, ({ sampleDoc with
        analysis := some (AnalysisService.buildPayload
          [AnalysisService.PyVal.str "v", AnalysisService.PyVal.str "a",
           AnalysisService.PyVal.str "r", AnalysisService.PyVal.str "i"]
          "q" "f" "g"),
        status := AnalysisService.DocumentStatus.completed,
        processedDate := some 3,
        error := Option.none } : AnalysisService.Document).analysis = some p ∧
      AnalysisService.encodable p = true :=
  (result_assembler_json_safe.2.2.2.2.2.2.2.2 (some sampleDoc)
    (AnalysisService.TaskOutcome.ok (AnalysisService.PyVal.str "v"))
    (AnalysisService.TaskOutcome.ok (AnalysisService.PyVal.str "a"))
    (AnalysisService.TaskOutcome.ok (AnalysisService.PyVal.str "r"))
    (AnalysisService.TaskOutcome.ok (AnalysisService.PyVal.str "i"))
    "q" "f" "g" 3 "enc" _ rfl rfl)

namespace SearchTool

/-- One entry of the Serper response's `"organic"` list, with the fields
`search_tool` reads via `.get(...)` (absent fields fall back to defaults). -/
structure SerperItem where
  title : Option String
  link : Option String
  snippet : Option String
deriving DecidableEq

/-- The outcome of the HTTP POST inside `search_tool`'s `try` block:
a timeout (`httpx.TimeoutException`), any other exception (with its
`str(e)`), or a parsed response carrying the `"organic"` list (missing key
modelled as the empty list). -/
inductive NetOutcome where
  | timeout
  | failure (msg : String)
  | response (organic : List SerperItem)
deriving DecidableEq

/-- Python slicing `s[:n]`. -/
def pyTake (n : Nat) (s : String) : String := (s.data.take n).asString

/-- One formatted result line of `search_tool`:
`f"• {title}\n  {link}\n  {snippet}"` with the source's defaults and
truncations. -/
def formatItem (it : SerperItem) : String :=
  "• " ++ pyTake 100 (it.title.getD "Untitled") ++ "\n  " ++ it.link.getD "" ++
    "\n  " ++ pyTake 200 (it.snippet.getD "")

/-- Model of the module-level `search_tool` in `financial_tools.py`: every
code path returns a string — missing key, timeout and any other error each
produce a fixed informational message, an empty result list produces
`"No search results found."`, and otherwise the first 5 items are formatted
and joined with blank lines. -/
def search_tool (apiKey : String) (net : NetOutcome) (query : String) : String :=
  if apiKey = "" then "Search unavailable: SERPER_API_KEY not set."
  else
    match net with
    | .timeout => "Search timeout occurred."
    | .failure e => "Search error: " ++ e
    | .response organic =>
      match organic.take 5 with
      | [] => "No search results found."
      | i :: rest => String.intercalate "\n\n" ((i :: rest).map formatItem)

/-- The outcome of the `try` block of `SerperSearchTool._run` in
`search_tool.py`: any exception (including the failed request that a
missing/empty `SERPER_API_KEY` causes), or the parsed response body. -/
inductive SerperNet where
  | failure
  | response (raw : AnalysisService.PyVal)

/-- Model of `SerperSearchTool._run`: the parsed response on success; on
any exception the handler only logs, so the function falls off the end and
returns `None` — not an informational string. -/
def serper_run : SerperNet → Option AnalysisService.PyVal
  | .failure => Option.none
  | .response raw => some raw

end SearchTool

/-- C8 counterexample: on a failing request (e.g. with missing credentials,
which make the Serper call fail), `SerperSearchTool._run` returns `None` —
it does not return a descriptive informational string result as the claim
states for the web-search capability. -/
theorem serper_run_returns_no_string :
    SearchTool.serper_run SearchTool.SerperNet.failure = Option.none := rfl

/-- C8 (amended): neither web-search entry point raises to its caller (both
models are total functions into plain values); the module-level
`search_tool` returns a descriptive informational string on every failure
path, including missing credentials; but `SerperSearchTool._run` merely
swallows errors, returning the raw response dict on success and `None` (no
informational string) on any failure. -/
theorem web_search_never_raises :
    (∀ net query, SearchTool.search_tool "" net query =
      "Search unavailable: SERPER_API_KEY not set.") ∧
    (∀ apiKey query, apiKey ≠ "" →
      SearchTool.search_tool apiKey SearchTool.NetOutcome.timeout query =
        "Search timeout occurred.") ∧
    (∀ apiKey query e, apiKey ≠ "" →
      SearchTool.search_tool apiKey (SearchTool.NetOutcome.failure e) query =
        "Search error: " ++ e) ∧
    (∀ apiKey query, apiKey ≠ "" →
      SearchTool.search_tool apiKey (SearchTool.NetOutcome.response []) query =
        "No search results found.") ∧
    (∀ apiKey query items i rest, apiKey ≠ "" → items.take 5 = i :: rest →
      SearchTool.search_tool apiKey (SearchTool.NetOutcome.response items) query =
        String.intercalate "\n\n" ((i :: rest).map SearchTool.formatItem)) ∧
    (∀ raw, SearchTool.serper_run (SearchTool.SerperNet.response raw) = some raw) ∧
    SearchTool.serper_run SearchTool.SerperNet.failure = Option.none := by
  refine ⟨fun net query => rfl, ?_, ?_, ?_, ?_, fun raw => rfl, rfl⟩
  · intro apiKey query h
    simp [SearchTool.search_tool, h]
  · intro apiKey query e h
    simp [SearchTool.search_tool, h]
  · intro apiKey query h
    simp [SearchTool.search_tool, h]
  · intro apiKey query items i rest h htake
    simp [SearchTool.search_tool, h, htake]

/-- Closed instance of `web_search_never_raises`. -/
theorem web_search_never_raises_witness :
    SearchTool.search_tool "key" SearchTool.NetOutcome.timeout "q" =
      "Search timeout occurred." ∧
    SearchTool.search_tool "key" (SearchTool.NetOutcome.failure "401") "q" =
      "Search error: " ++ "401" ∧
    SearchTool.search_tool "key" (SearchTool.NetOutcome.response []) "q" =
      "No search results found." ∧
    SearchTool.search_tool "key"
        (SearchTool.NetOutcome.response [⟨some "T", some "L", some "S"⟩]) "q" =
      String.intercalate "\n\n"
        ([(⟨some "T", some "L", some "S"⟩ : SearchTool.SerperItem)].map
          SearchTool.formatItem) := by
  refine ⟨web_search_never_raises.2.1 "key" "q" (by decide),
    web_search_never_raises.2.2.1 "key" "q" "401" (by decide),
    web_search_never_raises.2.2.2.1 "key" "q" (by decide),
    web_search_never_raises.2.2.2.2.1 "key" "q"
      [⟨some "T", some "L", some "S"⟩] ⟨some "T", some "L", some "S"⟩ []
      (by decide) rfl⟩
